import Mathlib

/-!
# Verification of the STEM dashboard's series-reconstruction pipeline

Shallow embedding of `procesar_dataset` from `src/app.py` (and of the seed
dataset `obtener_datos_stem`).  The pipeline takes a sparse observation table
(columns `año, pais, graduados, mujeres_pct, gasto_pbi`) and, per country:

1. filters the table to that country and indexes it by year
   (`df[df["pais"] == pais].set_index("año")`),
2. left-joins it onto the full index `range(1990, 2026)`
   (`pd.DataFrame(index=range(1990, 2026)).join(sub_df)`),
3. applies `interpolate(method='linear')`, which linearly fills NaN gaps of the
   *numeric* columns between known values, fills trailing NaNs flat with the
   last known value, leaves leading NaNs in place, and does not touch the
   object column `pais`,
4. overwrites the rows 2023–2025 with a 2 % compound-growth projection based on
   the row at 2022 (`sub_df.loc[2022, ...]`), setting `pais` on those rows,
5. concatenates the per-country frames with `pd.concat`.

Numbers are modelled as exact rationals (`ℚ`); a missing value (NaN) is
`Option.none`.  Year columns are `Int`.  Since the joined index
`range(1990, 2026)` is a complete run of consecutive integers, pandas'
position-based `method='linear'` coincides with index-based linear
interpolation, which is what `interpCol` below implements.
-/

namespace STEM

/-- One input row of the seed table
`(año, pais, graduados, mujeres_pct, gasto_pbi)`. -/
structure Obs where
  anio : Int
  pais : String
  graduados : ℚ
  mujeres_pct : ℚ
  gasto_pbi : ℚ
deriving Repr, DecidableEq

/-- One output row of the reconstructed table.  After the left join onto
`range(1990, 2026)` every column other than the year may be NaN (`none`). -/
structure Row where
  anio : Int
  pais : Option String
  graduados : Option ℚ
  mujeres_pct : Option ℚ
  gasto_pbi : Option ℚ
deriving Repr, DecidableEq

/-- The seed table built by `obtener_datos_stem` (src/app.py, lines 59-68). -/
def datosSTEM : List Obs :=
  [ ⟨1990, "Argentina", 9200, 30, 4⟩, ⟨2022, "Argentina", 16800, 42, 51/10⟩,
    ⟨1990, "EEUU", 320000, 25, 5⟩, ⟨2022, "EEUU", 780000, 35, 28/5⟩,
    ⟨1990, "Brasil", 45000, 20, 19/5⟩, ⟨2022, "Brasil", 115000, 33, 6⟩,
    ⟨1990, "México", 35000, 18, 7/2⟩, ⟨2022, "México", 138000, 30, 26/5⟩,
    ⟨1990, "Canadá", 28000, 28, 6⟩, ⟨2022, "Canadá", 75000, 38, 13/2⟩,
    ⟨1990, "Chile", 5800, 15, 16/5⟩, ⟨2022, "Chile", 15200, 28, 5⟩ ]

/-- The joined year index `range(1990, 2026)` (src/app.py, line 82). -/
def anios : List Int :=
  [1990, 1991, 1992, 1993, 1994, 1995, 1996, 1997, 1998, 1999,
   2000, 2001, 2002, 2003, 2004, 2005, 2006, 2007, 2008, 2009,
   2010, 2011, 2012, 2013, 2014, 2015, 2016, 2017, 2018, 2019,
   2020, 2021, 2022, 2023, 2024, 2025]

/-- An observation lands in the joined frame iff its year is inside the joined
index `range(1990, 2026)`; rows with other years are dropped by the left
join. -/
def inWindow (o : Obs) : Bool :=
  decide (1990 ≤ o.anio ∧ o.anio ≤ 2025)

/-- The observations of a sub-table that survive the left join onto
`range(1990, 2026)`. -/
def winObs (l : List Obs) : List Obs :=
  l.filter inWindow

/-- `df[df["pais"] == pais]` (src/app.py, line 79). -/
def filterPais (df : List Obs) (p : String) : List Obs :=
  df.filter (fun o => o.pais == p)

/-- The surviving observation with the greatest year `≤ y`, if any: the left
neighbour used by linear interpolation / forward fill. -/
def bestLe : List Obs → Int → Option Obs
  | [], _ => none
  | o :: rest, y =>
    match bestLe rest y with
    | none => if o.anio ≤ y then some o else none
    | some b => if o.anio ≤ y ∧ b.anio ≤ o.anio then some o else some b

/-- The surviving observation with the least year `≥ y`, if any: the right
neighbour used by linear interpolation. -/
def bestGe : List Obs → Int → Option Obs
  | [], _ => none
  | o :: rest, y =>
    match bestGe rest y with
    | none => if y ≤ o.anio then some o else none
    | some b => if y ≤ o.anio ∧ o.anio ≤ b.anio then some o else some b

/-- Value of one numeric column at year `y` after
`años_todos.join(sub_df).interpolate(method='linear')` (src/app.py, line 86):
observed values verbatim, linear interpolation between the two bracketing
observations, flat forward fill after the last observation, and `none` (NaN)
before the first observation (`interpolate`'s default `limit_direction` is
`'forward'`, so leading NaNs are not filled). -/
def interpCol (l : List Obs) (c : Obs → ℚ) (y : Int) : Option ℚ :=
  match bestLe (winObs l) y, bestGe (winObs l) y with
  | some o1, some o2 =>
    if o2.anio = o1.anio then some (c o1)
    else some (c o1 + (c o2 - c o1) * ((y - o1.anio : Int) : ℚ) / ((o2.anio - o1.anio : Int) : ℚ))
  | some o1, none => some (c o1)
  | none, _ => none

/-- The observation sitting at year `y` of the joined frame, if `y` was
observed (the join places each surviving input row at its year). -/
def obsAt (l : List Obs) (y : Int) : Option Obs :=
  (winObs l).find? (fun o => decide (o.anio = y))

/-- Row `y` of the joined-and-interpolated frame: numeric columns via
`interpCol`; the object column `pais` is untouched by `interpolate`, so it is
the observed label where `y` was observed and NaN elsewhere. -/
def historyRow (l : List Obs) (y : Int) : Row :=
  { anio := y
    pais := (obsAt l y).map (fun o => o.pais)
    graduados := interpCol l (fun o => o.graduados) y
    mujeres_pct := interpCol l (fun o => o.mujeres_pct) y
    gasto_pbi := interpCol l (fun o => o.gasto_pbi) y }

/-- The whole frame `años_todos.join(sub_df).interpolate(method='linear')`,
one row per year of `range(1990, 2026)`. -/
def historyTable (l : List Obs) : List Row :=
  anios.map (historyRow l)

/-- The fixed growth rate 1.02 of the projection (src/app.py, line 92). -/
def growthFactor : ℚ := 51 / 50

/-- One run of the projection loop body on the row for year `r.anio`
(src/app.py, lines 90-96): rows with year in `range(2023, 2026)` are
overwritten with `ultima_grad * 1.02 ** (a - 2022)`, the country label, and
the (frozen) percentage columns of the row at 2022; other rows are left
alone.  `anchor` is the row `sub_df.loc[2022]`, never itself rewritten. -/
def projUpdate (anchor : Row) (p : String) (r : Row) : Row :=
  if 2022 < r.anio ∧ r.anio ≤ 2025 then
    { anio := r.anio
      pais := some p
      graduados := anchor.graduados.map (fun g => g * growthFactor ^ (r.anio - 2022).toNat)
      mujeres_pct := anchor.mujeres_pct
      gasto_pbi := anchor.gasto_pbi }
  else r

/-- The row `sub_df.loc[2022]` read by the projection loop. -/
def anchorRow (t : List Row) : Option Row :=
  t.find? (fun r => decide (r.anio = 2022))

/-- The projection loop of src/app.py, lines 88-96, applied to the
interpolated frame.  The year 2022 is always in the joined index, so the
`none` branch is dead in every use. -/
def applyProj (t : List Row) (p : String) : List Row :=
  match anchorRow t with
  | none => t
  | some anchor => t.map (projUpdate anchor p)

/-- The full per-country body of the loop in `procesar_dataset`
(src/app.py, lines 77-99): filter, join, interpolate, project. -/
def procesarPais (l : List Obs) (p : String) : List Row :=
  applyProj (historyTable l) p

/-- `df["pais"].unique()` (src/app.py, line 74): the distinct country labels
in first-seen order. -/
def uniquePaises : List Obs → List String
  | [] => []
  | o :: rest => o.pais :: (uniquePaises rest).filter (fun q => q != o.pais)

/-- The block of 36 rows that country `p` contributes to the final
concatenation. -/
def bloque (df : List Obs) (p : String) : List Row :=
  procesarPais (filterPais df p) p

/-- `procesar_dataset` (src/app.py, lines 73-102).  The result is `none` when
the input table is empty, because `pd.concat` of an empty list of frames
raises `ValueError: No objects to concatenate`; otherwise it is the
concatenation of the per-country blocks. -/
def procesar_dataset (df : List Obs) : Option (List Row) :=
  let ps := uniquePaises df
  if ps.isEmpty then none
  else some ((ps.map (fun p => bloque df p)).flatten)

/-- The example scenario of the spec, §8: two observations for one country. -/
def exDf : List Obs := [⟨1990, "X", 100, 20, 4⟩, ⟨2022, "X", 200, 40, 5⟩]

/-- A table with an observation in the projected range 2023-2025. -/
def exDfProj : List Obs := [⟨2022, "X", 100, 40, 5⟩, ⟨2024, "X", 500, 50, 6⟩]

/-- A table whose only observation is at year 2000. -/
def exDfLate : List Obs := [⟨2000, "X", 100, 20, 4⟩]

/-- A table with a slight dip between 2021 and 2024. -/
def exDfDip : List Obs := [⟨2021, "X", 100, 50, 5⟩, ⟨2024, "X", 98, 50, 5⟩]

/-!
## Heap model

To settle the frame claim — `procesar_dataset` never mutates its input
DataFrame — the pipeline is re-run over an explicit heap of DataFrame
objects.  Python-level aliasing is modelled by addresses into the heap;
operations that pandas performs out-of-place (`df[mask]`, `set_index`,
`join`, `interpolate` with its default `inplace=False`) allocate fresh
objects, while the `.loc[...] = ...` assignments of the projection loop
mutate the addressed frame in place via `Heap.set`.
-/

/-- A pandas DataFrame object: either an observation table (like `df` and the
filtered `sub_df` before the join) or a joined year-indexed table. -/
inductive PVal where
  | obsTable : List Obs → PVal
  | rowTable : List Row → PVal
deriving Repr, DecidableEq

/-- The heap of live DataFrame objects, addressed by position. -/
abbrev Heap := List PVal

/-- Read an observation table at an address. -/
def readObs (h : Heap) (a : Nat) : List Obs :=
  match h[a]? with
  | some (PVal.obsTable t) => t
  | _ => []

/-- Read a joined table at an address. -/
def readRows (h : Heap) (a : Nat) : List Row :=
  match h[a]? with
  | some (PVal.rowTable t) => t
  | _ => []

/-- Allocate a fresh object, returning the new heap and its address. -/
def alloc (h : Heap) (v : PVal) : Heap × Nat :=
  (h ++ [v], h.length)

/-- The projection loop's `.loc[a, ...] = ...` writes (src/app.py, lines
90-96), mutating the frame at address `a` in place. -/
def locSetProj (h : Heap) (a : Nat) (p : String) : Heap :=
  h.set a (PVal.rowTable (applyProj (readRows h a) p))

/-- One iteration of the per-country loop, on the heap: filter (fresh),
set_index (fresh), join+interpolate (fresh), then the in-place projection
writes.  Returns the address of the country's finished frame. -/
def runPais (h : Heap) (dfA : Nat) (p : String) : Heap × Nat :=
  let sub := filterPais (readObs h dfA) p
  let h1 := (alloc h (PVal.obsTable sub)).1
  let j := alloc h1 (PVal.rowTable (historyTable sub))
  (locSetProj j.1 j.2 p, j.2)

/-- The per-country loop over the list of countries. -/
def runLoop (h : Heap) (dfA : Nat) : List String → Heap × List Nat
  | [] => (h, [])
  | p :: ps =>
    let s := runPais h dfA p
    let rest := runLoop s.1 dfA ps
    (rest.1, s.2 :: rest.2)

/-- `procesar_dataset` on the heap: compute the country list from the input
frame, run the loop, then `pd.concat` the per-country frames (an error —
`none` — when there are none). -/
def runDataset (h : Heap) (dfA : Nat) : Heap × Option (List Row) :=
  let ps := uniquePaises (readObs h dfA)
  let r := runLoop h dfA ps
  if ps.isEmpty then (r.1, none)
  else (r.1, some ((r.2.map (readRows r.1)).flatten))

/-- Years of a country's sub-table are pairwise distinct — the spec's data
model guarantees `(country, year)` pairs are unique within a country. -/
def uniqYears (l : List Obs) : Prop :=
  l.Pairwise (fun a b => a.anio ≠ b.anio)

instance (l : List Obs) : Decidable (uniqYears l) :=
  List.instDecidablePairwise l

/-! ## Properties of the neighbour search -/

theorem bestLe_none {y : Int} :
    ∀ {l : List Obs}, bestLe l y = none → ∀ o ∈ l, y < o.anio := by
  intro l
  induction l with
  | nil => intro _ o ho; cases ho
  | cons a rest ih =>
    intro h o ho
    simp only [bestLe] at h
    split at h
    · split at h
      · cases h
      · rename_i hnone ha
        rcases List.mem_cons.mp ho with h' | h'
        · subst h'; omega
        · exact ih hnone o h'
    · split at h <;> cases h

theorem bestGe_none {y : Int} :
    ∀ {l : List Obs}, bestGe l y = none → ∀ o ∈ l, o.anio < y := by
  intro l
  induction l with
  | nil => intro _ o ho; cases ho
  | cons a rest ih =>
    intro h o ho
    simp only [bestGe] at h
    split at h
    · split at h
      · cases h
      · rename_i hnone ha
        rcases List.mem_cons.mp ho with h' | h'
        · subst h'; omega
        · exact ih hnone o h'
    · split at h <;> cases h

theorem bestLe_spec {y : Int} :
    ∀ {l : List Obs} {o : Obs}, bestLe l y = some o →
      o ∈ l ∧ o.anio ≤ y ∧ ∀ o' ∈ l, o'.anio ≤ y → o'.anio ≤ o.anio := by
  intro l
  induction l with
  | nil => intro o h; simp [bestLe] at h
  | cons a rest ih =>
    intro o h
    simp only [bestLe] at h
    cases hr : bestLe rest y with
    | none =>
      rw [hr] at h
      simp only [] at h
      by_cases ha : a.anio ≤ y
      · rw [if_pos ha] at h
        injection h with h
        subst h
        refine ⟨List.mem_cons_self a rest, ha, ?_⟩
        intro o' ho' hy'
        rcases List.mem_cons.mp ho' with h' | h'
        · subst h'; exact le_refl _
        · have := bestLe_none hr o' h'; omega
      · rw [if_neg ha] at h; cases h
    | some b =>
      rw [hr] at h
      simp only [] at h
      obtain ⟨hbm, hby, hbmax⟩ := ih hr
      by_cases hc : a.anio ≤ y ∧ b.anio ≤ a.anio
      · rw [if_pos hc] at h
        injection h with h
        subst h
        refine ⟨List.mem_cons_self a rest, hc.1, ?_⟩
        intro o' ho' hy'
        rcases List.mem_cons.mp ho' with h' | h'
        · subst h'; exact le_refl _
        · exact le_trans (hbmax o' h' hy') hc.2
      · rw [if_neg hc] at h
        injection h with h
        subst h
        refine ⟨List.mem_cons_of_mem a hbm, hby, ?_⟩
        intro o' ho' hy'
        rcases List.mem_cons.mp ho' with h' | h'
        · subst h'; omega
        · exact hbmax o' h' hy'

theorem bestGe_spec {y : Int} :
    ∀ {l : List Obs} {o : Obs}, bestGe l y = some o →
      o ∈ l ∧ y ≤ o.anio ∧ ∀ o' ∈ l, y ≤ o'.anio → o.anio ≤ o'.anio := by
  intro l
  induction l with
  | nil => intro o h; simp [bestGe] at h
  | cons a rest ih =>
    intro o h
    simp only [bestGe] at h
    cases hr : bestGe rest y with
    | none =>
      rw [hr] at h
      simp only [] at h
      by_cases ha : y ≤ a.anio
      · rw [if_pos ha] at h
        injection h with h
        subst h
        refine ⟨List.mem_cons_self a rest, ha, ?_⟩
        intro o' ho' hy'
        rcases List.mem_cons.mp ho' with h' | h'
        · subst h'; exact le_refl _
        · have := bestGe_none hr o' h'; omega
      · rw [if_neg ha] at h; cases h
    | some b =>
      rw [hr] at h
      simp only [] at h
      obtain ⟨hbm, hby, hbmax⟩ := ih hr
      by_cases hc : y ≤ a.anio ∧ a.anio ≤ b.anio
      · rw [if_pos hc] at h
        injection h with h
        subst h
        refine ⟨List.mem_cons_self a rest, hc.1, ?_⟩
        intro o' ho' hy'
        rcases List.mem_cons.mp ho' with h' | h'
        · subst h'; exact le_refl _
        · exact le_trans hc.2 (hbmax o' h' hy')
      · rw [if_neg hc] at h
        injection h with h
        subst h
        refine ⟨List.mem_cons_of_mem a hbm, hby, ?_⟩
        intro o' ho' hy'
        rcases List.mem_cons.mp ho' with h' | h'
        · subst h'; omega
        · exact hbmax o' h' hy'

/-! ## Interpolation at a year: the four regimes -/

theorem uniq_eq {l : List Obs} {a b : Obs} (hu : uniqYears l)
    (ha : a ∈ l) (hb : b ∈ l) (h : a.anio = b.anio) : a = b := by
  by_cases hab : a = b
  · exact hab
  · have hsymm : Symmetric (fun x y : Obs => x.anio ≠ y.anio) :=
      fun x y hxy he => hxy he.symm
    exact absurd h (List.Pairwise.forall hsymm hu ha hb hab)

theorem uniq_winObs {l : List Obs} (hu : uniqYears l) : uniqYears (winObs l) :=
  List.Pairwise.sublist (List.filter_sublist l) hu

theorem bestLe_eq_self {l : List Obs} {o : Obs} {y : Int} (hu : uniqYears l)
    (ho : o ∈ l) (hle : o.anio ≤ y)
    (hmax : ∀ o' ∈ l, o'.anio ≤ y → o'.anio ≤ o.anio) : bestLe l y = some o := by
  cases hb : bestLe l y with
  | none => have := bestLe_none hb o ho; omega
  | some b =>
    obtain ⟨hbm, hby, hbmax⟩ := bestLe_spec hb
    have h1 : o.anio ≤ b.anio := hbmax o ho hle
    have h2 : b.anio ≤ o.anio := hmax b hbm hby
    rw [uniq_eq hu hbm ho (by omega)]

theorem bestGe_eq_self {l : List Obs} {o : Obs} {y : Int} (hu : uniqYears l)
    (ho : o ∈ l) (hge : y ≤ o.anio)
    (hmin : ∀ o' ∈ l, y ≤ o'.anio → o.anio ≤ o'.anio) : bestGe l y = some o := by
  cases hb : bestGe l y with
  | none => have := bestGe_none hb o ho; omega
  | some b =>
    obtain ⟨hbm, hby, hbmin⟩ := bestGe_spec hb
    have h1 : b.anio ≤ o.anio := hbmin o ho hge
    have h2 : o.anio ≤ b.anio := hmin b hbm hby
    rw [uniq_eq hu hbm ho (by omega)]

/-- Exactness: at an observed in-window year the interpolated column carries
the observed value verbatim. -/
theorem interpCol_observed {l : List Obs} {o : Obs} (c : Obs → ℚ) {y : Int}
    (hu : uniqYears l) (ho : o ∈ l) (hw : inWindow o = true) (hy : o.anio = y) :
    interpCol l c y = some (c o) := by
  have how : o ∈ winObs l := List.mem_filter.mpr ⟨ho, hw⟩
  have huw := uniq_winObs hu
  have hle : bestLe (winObs l) y = some o :=
    bestLe_eq_self huw how (by omega) (fun o' _ h => by omega)
  have hge : bestGe (winObs l) y = some o :=
    bestGe_eq_self huw how (by omega) (fun o' _ h => by omega)
  rw [interpCol, hle, hge]
  simp

/-- Linear interpolation between the two bracketing observations, at a year
strictly between them with no intervening observation. -/
theorem interpCol_linear {l : List Obs} {o1 o2 : Obs} (c : Obs → ℚ) {y : Int}
    (hu : uniqYears l) (h1 : o1 ∈ winObs l) (h2 : o2 ∈ winObs l)
    (hy1 : o1.anio < y) (hy2 : y < o2.anio)
    (hnb : ∀ o ∈ winObs l, o.anio ≤ o1.anio ∨ o2.anio ≤ o.anio) :
    interpCol l c y =
      some (c o1 + (c o2 - c o1) * ((y - o1.anio : Int) : ℚ) / ((o2.anio - o1.anio : Int) : ℚ)) := by
  have huw := uniq_winObs hu
  have hle : bestLe (winObs l) y = some o1 :=
    bestLe_eq_self huw h1 (by omega) (fun o' ho' h => by
      rcases hnb o' ho' with h' | h' <;> omega)
  have hge : bestGe (winObs l) y = some o2 :=
    bestGe_eq_self huw h2 (by omega) (fun o' ho' h => by
      rcases hnb o' ho' with h' | h' <;> omega)
  simp only [interpCol, hle, hge]
  rw [if_neg (by omega)]

/-- Flat forward fill: strictly after the last surviving observation the
column repeats that observation's value. -/
theorem interpCol_flat {l : List Obs} {olast : Obs} (c : Obs → ℚ) {y : Int}
    (hu : uniqYears l) (h : olast ∈ winObs l)
    (hmax : ∀ o ∈ winObs l, o.anio ≤ olast.anio) (hy : olast.anio < y) :
    interpCol l c y = some (c olast) := by
  have huw := uniq_winObs hu
  have hle : bestLe (winObs l) y = some olast :=
    bestLe_eq_self huw h (by omega) (fun o' ho' _ => hmax o' ho')
  have hge : bestGe (winObs l) y = none := by
    cases hb : bestGe (winObs l) y with
    | none => rfl
    | some b =>
      obtain ⟨hbm, hby, _⟩ := bestGe_spec hb
      have := hmax b hbm
      omega
  rw [interpCol, hle, hge]

/-- Before the first surviving observation the column stays NaN. -/
theorem interpCol_undef {l : List Obs} (c : Obs → ℚ) {y : Int}
    (h : ∀ o ∈ winObs l, y < o.anio) : interpCol l c y = none := by
  have hle : bestLe (winObs l) y = none := by
    cases hb : bestLe (winObs l) y with
    | none => rfl
    | some b =>
      obtain ⟨hbm, hby, _⟩ := bestLe_spec hb
      have := h b hbm
      omega
  rw [interpCol, hle]

/-- Inside the surviving observation span every interpolated column value lies
between the values of the two bracketing observations (one pair of brackets
serves all columns). -/
theorem interpCol_bounds {l : List Obs} {y : Int}
    (hle : ∃ o ∈ winObs l, o.anio ≤ y) (hge : ∃ o ∈ winObs l, y ≤ o.anio) :
    ∃ o1 o2, o1 ∈ winObs l ∧ o2 ∈ winObs l ∧
      ∀ c : Obs → ℚ, ∃ v, interpCol l c y = some v ∧
        min (c o1) (c o2) ≤ v ∧ v ≤ max (c o1) (c o2) := by
  obtain ⟨ol, holm, holy⟩ := hle
  obtain ⟨og, hogm, hogy⟩ := hge
  cases hb1 : bestLe (winObs l) y with
  | none => have := bestLe_none hb1 ol holm; omega
  | some o1 =>
    cases hb2 : bestGe (winObs l) y with
    | none => have := bestGe_none hb2 og hogm; omega
    | some o2 =>
      obtain ⟨h1m, h1y, _⟩ := bestLe_spec hb1
      obtain ⟨h2m, h2y, _⟩ := bestGe_spec hb2
      refine ⟨o1, o2, h1m, h2m, ?_⟩
      intro c
      by_cases heq : o2.anio = o1.anio
      · refine ⟨c o1, ?_, min_le_left _ _, le_max_left _ _⟩
        simp only [interpCol, hb1, hb2]
        rw [if_pos heq]
      · have hlt : o1.anio < o2.anio := by omega
        have htn : (0 : ℚ) ≤ ((y - o1.anio : Int) : ℚ) := by
          have h' : (0 : Int) ≤ y - o1.anio := by omega
          exact_mod_cast h'
        have htd : (0 : ℚ) < ((o2.anio - o1.anio : Int) : ℚ) := by
          have h' : (0 : Int) < o2.anio - o1.anio := by omega
          exact_mod_cast h'
        have htnum : ((y - o1.anio : Int) : ℚ) ≤ ((o2.anio - o1.anio : Int) : ℚ) := by
          have h' : (y - o1.anio : Int) ≤ o2.anio - o1.anio := by omega
          exact_mod_cast h'
        have ht0 : (0 : ℚ) ≤ ((y - o1.anio : Int) : ℚ) / ((o2.anio - o1.anio : Int) : ℚ) :=
          div_nonneg htn (le_of_lt htd)
        have ht1 : ((y - o1.anio : Int) : ℚ) / ((o2.anio - o1.anio : Int) : ℚ) ≤ 1 :=
          (div_le_one htd).mpr htnum
        set t : ℚ := ((y - o1.anio : Int) : ℚ) / ((o2.anio - o1.anio : Int) : ℚ) with ht
        refine ⟨c o1 + (c o2 - c o1) * t, ?_, ?_, ?_⟩
        · simp only [interpCol, hb1, hb2]
          rw [if_neg heq, mul_div_assoc, ← ht]
        · rcases le_total (c o1) (c o2) with hc | hc
          · rw [min_eq_left hc]
            nlinarith
          · rw [min_eq_right hc]
            nlinarith
        · rcases le_total (c o1) (c o2) with hc | hc
          · rw [max_eq_right hc]
            nlinarith
          · rw [max_eq_left hc]
            nlinarith

/-! ## The joined table and the per-country block -/

theorem mem_anios {y : Int} : y ∈ anios ↔ 1990 ≤ y ∧ y ≤ 2025 := by
  constructor
  · intro h
    fin_cases h <;> omega
  · intro h
    simp only [anios, List.mem_cons, List.mem_singleton]
    omega

theorem anios_nodup : anios.Nodup := by decide

theorem anchorRow_historyTable (l : List Obs) :
    anchorRow (historyTable l) = some (historyRow l 2022) := by
  simp [anchorRow, historyTable, List.find?_map, Function.comp, historyRow, anios, List.find?]

theorem procesarPais_eq (l : List Obs) (p : String) :
    procesarPais l p = anios.map (fun y => projUpdate (historyRow l 2022) p (historyRow l y)) := by
  simp only [procesarPais, applyProj, anchorRow_historyTable, historyTable, List.map_map]
  rfl

theorem projUpdate_anio (anchor : Row) (p : String) (r : Row) :
    (projUpdate anchor p r).anio = r.anio := by
  rw [projUpdate]
  split <;> rfl

theorem projUpdate_of_le {anchor : Row} {p : String} {r : Row} (h : r.anio ≤ 2022) :
    projUpdate anchor p r = r := by
  rw [projUpdate, if_neg (by omega)]

theorem projUpdate_of_gt {anchor : Row} {p : String} {r : Row}
    (h1 : 2022 < r.anio) (h2 : r.anio ≤ 2025) :
    projUpdate anchor p r =
      { anio := r.anio
        pais := some p
        graduados := anchor.graduados.map (fun g => g * growthFactor ^ (r.anio - 2022).toNat)
        mujeres_pct := anchor.mujeres_pct
        gasto_pbi := anchor.gasto_pbi } := by
  rw [projUpdate, if_pos ⟨h1, h2⟩]

theorem bloque_eq (df : List Obs) (p : String) :
    bloque df p =
      anios.map (fun y =>
        projUpdate (historyRow (filterPais df p) 2022) p (historyRow (filterPais df p) y)) := by
  rw [bloque, procesarPais_eq]

theorem bloque_anios (df : List Obs) (p : String) :
    (bloque df p).map (fun r => r.anio) = anios := by
  rw [bloque_eq, List.map_map]
  have h : ∀ y : Int,
      (projUpdate (historyRow (filterPais df p) 2022) p (historyRow (filterPais df p) y)).anio
        = y := by
    intro y
    rw [projUpdate_anio]
    rfl
  calc anios.map (fun y =>
        (projUpdate (historyRow (filterPais df p) 2022) p (historyRow (filterPais df p) y)).anio)
      = anios.map id := List.map_congr_left (fun y _ => h y)
    _ = anios := List.map_id anios

theorem mem_bloque (df : List Obs) (p : String) {y : Int} (hy : y ∈ anios) :
    projUpdate (historyRow (filterPais df p) 2022) p (historyRow (filterPais df p) y)
      ∈ bloque df p := by
  rw [bloque_eq]
  exact List.mem_map_of_mem _ hy

/-! ## The country list and the concatenation -/

theorem mem_uniquePaises {df : List Obs} {p : String} :
    p ∈ uniquePaises df ↔ ∃ o ∈ df, o.pais = p := by
  induction df with
  | nil => simp [uniquePaises]
  | cons a rest ih =>
    simp only [uniquePaises, List.mem_cons, List.mem_filter, bne_iff_ne, ih]
    constructor
    · rintro (h | ⟨⟨o, ho, hp⟩, _⟩)
      · exact ⟨a, Or.inl rfl, h.symm⟩
      · exact ⟨o, Or.inr ho, hp⟩
    · rintro ⟨o, ho | ho, hp⟩
      · subst ho; exact Or.inl hp.symm
      · by_cases hpa : p = a.pais
        · exact Or.inl hpa
        · exact Or.inr ⟨⟨o, ho, hp⟩, hpa⟩

theorem uniquePaises_ne_nil {df : List Obs} (h : df ≠ []) : uniquePaises df ≠ [] := by
  cases df with
  | nil => exact absurd rfl h
  | cons a rest => simp [uniquePaises]

theorem procesar_dataset_eq {df : List Obs} (h : uniquePaises df ≠ []) :
    procesar_dataset df = some (((uniquePaises df).map (fun p => bloque df p)).flatten) := by
  rw [procesar_dataset]
  simp [List.isEmpty_eq_true, h]

theorem bloque_in_rows {df : List Obs} {p : String} (hp : p ∈ uniquePaises df) :
    ∃ rows pre post, procesar_dataset df = some rows ∧ rows = pre ++ bloque df p ++ post := by
  have hne : uniquePaises df ≠ [] := List.ne_nil_of_mem hp
  obtain ⟨s, t, hst⟩ := List.append_of_mem hp
  refine ⟨((uniquePaises df).map (fun q => bloque df q)).flatten,
    (s.map (fun q => bloque df q)).flatten, (t.map (fun q => bloque df q)).flatten,
    procesar_dataset_eq hne, ?_⟩
  rw [hst]
  simp [List.map_append, List.flatten_append]

theorem mem_procesar {df : List Obs} {p : String} {r : Row}
    (hp : p ∈ uniquePaises df) (hr : r ∈ bloque df p) :
    ∃ rows, procesar_dataset df = some rows ∧ r ∈ rows := by
  obtain ⟨rows, pre, post, heq, hsplit⟩ := bloque_in_rows hp
  refine ⟨rows, heq, ?_⟩
  rw [hsplit]
  simp only [List.mem_append]
  exact Or.inl (Or.inr hr)

/-! ## The observed label -/

theorem filterPais_pais {df : List Obs} {p : String} {o : Obs}
    (h : o ∈ filterPais df p) : o.pais = p := by
  have := (List.mem_filter.mp h).2
  simpa using this

theorem filterPais_sub {df : List Obs} {p : String} {o : Obs}
    (h : o ∈ filterPais df p) : o ∈ df :=
  (List.mem_filter.mp h).1

theorem mem_filterPais {df : List Obs} {p : String} {o : Obs}
    (h : o ∈ df) (hp : o.pais = p) : o ∈ filterPais df p :=
  List.mem_filter.mpr ⟨h, by simp [hp]⟩

theorem obsAt_observed {l : List Obs} {o : Obs} (hu : uniqYears l)
    (ho : o ∈ l) (hw : inWindow o = true) : obsAt l o.anio = some o := by
  cases h : obsAt l o.anio with
  | none =>
    rw [obsAt, List.find?_eq_none] at h
    exact absurd (by simp : decide (o.anio = o.anio) = true)
      (h o (List.mem_filter.mpr ⟨ho, hw⟩))
  | some b =>
    have hb := List.find?_some h
    have hbm := List.mem_of_find?_eq_some h
    have : b.anio = o.anio := by simpa using hb
    rw [uniq_eq hu ((List.mem_filter.mp hbm).1) ho this]

theorem obsAt_none {l : List Obs} {y : Int}
    (h : ∀ o ∈ winObs l, o.anio ≠ y) : obsAt l y = none := by
  rw [obsAt, List.find?_eq_none]
  intro o ho
  simp only [decide_eq_true_eq]
  exact h o ho

theorem obsAt_pais {df : List Obs} {p : String} {y : Int} {o : Obs}
    (h : obsAt (filterPais df p) y = some o) : o.pais = p := by
  have hm := List.mem_of_find?_eq_some h
  exact filterPais_pais (List.mem_filter.mp hm).1

/-! ## The heap semantics: allocation discipline of the per-country loop -/

theorem readObs_congr {h1 h2 : Heap} {a : Nat} (h : h1[a]? = h2[a]?) :
    readObs h1 a = readObs h2 a := by
  rw [readObs, readObs, h]

theorem readRows_congr {h1 h2 : Heap} {a : Nat} (h : h1[a]? = h2[a]?) :
    readRows h1 a = readRows h2 a := by
  rw [readRows, readRows, h]

theorem runPais_length (h : Heap) (dfA : Nat) (p : String) :
    (runPais h dfA p).1.length = h.length + 2 := by
  simp [runPais, locSetProj, alloc, List.length_set, List.length_append]

theorem runPais_addr (h : Heap) (dfA : Nat) (p : String) :
    (runPais h dfA p).2 = h.length + 1 := by
  simp [runPais, alloc, List.length_append]

theorem runPais_preserve {h : Heap} (dfA : Nat) (p : String) {a : Nat} (ha : a < h.length) :
    ((runPais h dfA p).1)[a]? = h[a]? := by
  simp only [runPais, locSetProj, alloc]
  rw [List.getElem?_set_ne (by simp [List.length_append]; omega)]
  rw [List.getElem?_append_left (by simp [List.length_append]; omega),
    List.getElem?_append_left ha]

theorem runPais_result (h : Heap) (dfA : Nat) (p : String) :
    readRows (runPais h dfA p).1 (runPais h dfA p).2
      = procesarPais (filterPais (readObs h dfA) p) p := by
  simp only [runPais, locSetProj, alloc, readRows]
  rw [List.getElem?_set_eq_of_lt _ (by simp [List.length_append])]
  rw [List.getElem?_concat_length]
  rw [procesarPais]

theorem runLoop_spec (dfA : Nat) :
    ∀ (ps : List String) (h : Heap), dfA < h.length →
      h.length ≤ (runLoop h dfA ps).1.length ∧
      (∀ a, a < h.length → ((runLoop h dfA ps).1)[a]? = h[a]?) ∧
      ((runLoop h dfA ps).2).map (readRows (runLoop h dfA ps).1)
        = ps.map (fun p => procesarPais (filterPais (readObs h dfA) p) p) := by
  intro ps
  induction ps with
  | nil => intro h hdf; exact ⟨le_refl _, fun a _ => rfl, rfl⟩
  | cons p rest ih =>
    intro h hdf
    have hlen1 : (runPais h dfA p).1.length = h.length + 2 := runPais_length h dfA p
    have hdf1 : dfA < (runPais h dfA p).1.length := by omega
    obtain ⟨ih1, ih2, ih3⟩ := ih (runPais h dfA p).1 hdf1
    have hpre : ∀ a, a < h.length → ((runLoop (runPais h dfA p).1 dfA rest).1)[a]? = h[a]? := by
      intro a ha
      rw [ih2 a (by omega)]
      exact runPais_preserve dfA p ha
    refine ⟨?_, ?_, ?_⟩
    · show h.length ≤ (runLoop (runPais h dfA p).1 dfA rest).1.length
      omega
    · exact hpre
    · show ((runPais h dfA p).2 :: (runLoop (runPais h dfA p).1 dfA rest).2).map
          (readRows (runLoop (runPais h dfA p).1 dfA rest).1)
        = (p :: rest).map (fun q => procesarPais (filterPais (readObs h dfA) q) q)
      rw [List.map_cons, List.map_cons]
      have haddr : (runPais h dfA p).2 < (runPais h dfA p).1.length := by
        rw [runPais_addr]; omega
      have h1 : readRows (runLoop (runPais h dfA p).1 dfA rest).1 (runPais h dfA p).2
          = readRows (runPais h dfA p).1 (runPais h dfA p).2 :=
        readRows_congr (ih2 _ haddr)
      have h2 : readObs (runPais h dfA p).1 dfA = readObs h dfA :=
        readObs_congr (runPais_preserve dfA p hdf)
      rw [h1, runPais_result, ih3, h2]

theorem mem_rows_of_mem_bloque {df : List Obs} {p : String} {r : Row} {rows : List Row}
    (hp : p ∈ uniquePaises df) (hrows : procesar_dataset df = some rows)
    (hr : r ∈ bloque df p) : r ∈ rows := by
  obtain ⟨rows', pre, post, heq, hsplit⟩ := bloque_in_rows hp
  have h' : rows' = rows := Option.some.inj (heq.symm.trans hrows)
  rw [← h', hsplit]
  simp only [List.mem_append]
  exact Or.inl (Or.inr hr)

theorem inWindow_of_anios {o : Obs} (h : o.anio ∈ anios) : inWindow o = true := by
  rw [inWindow, decide_eq_true_eq]
  exact mem_anios.mp h

/-!
## The claims

Each claim of the specification is settled below, one theorem per claim
(with a closed counterexample where the claim as stated fails on the code,
and a witness instantiating every theorem that carries hypotheses).
-/

/-- C9 (confirmed): run over an explicit heap of DataFrame objects, the
pipeline leaves the object at the input frame's address untouched — the
in-place `.loc` writes of the projection loop only ever hit the frames
freshly allocated by `join(...).interpolate(...)` — and it returns exactly
what the pure `procesar_dataset` computes from the input's value, so the
output is a fresh collection, not a mutation of the input. -/
theorem C9_no_input_mutation (h : Heap) (dfA : Nat) (hdf : dfA < h.length) :
    ((runDataset h dfA).1)[dfA]? = h[dfA]? ∧
    (runDataset h dfA).2 = procesar_dataset (readObs h dfA) := by
  obtain ⟨hl, hp, hr⟩ := runLoop_spec dfA (uniquePaises (readObs h dfA)) h hdf
  have hds : runDataset h dfA =
      if (uniquePaises (readObs h dfA)).isEmpty
      then ((runLoop h dfA (uniquePaises (readObs h dfA))).1, none)
      else ((runLoop h dfA (uniquePaises (readObs h dfA))).1,
        some ((((runLoop h dfA (uniquePaises (readObs h dfA))).2).map
          (readRows (runLoop h dfA (uniquePaises (readObs h dfA))).1)).flatten)) := rfl
  by_cases he : (uniquePaises (readObs h dfA)).isEmpty
  · rw [hds, if_pos he]
    refine ⟨hp dfA hdf, ?_⟩
    rw [procesar_dataset]
    simp only [if_pos he]
  · rw [hds, if_neg he]
    refine ⟨hp dfA hdf, ?_⟩
    rw [procesar_dataset]
    simp only [if_neg he]
    rw [hr]
    rfl

/-- C9 witness: a one-object heap holding the example table. -/
theorem C9_witness :
    ((runDataset [PVal.obsTable exDf] 0).1)[0]? = some (PVal.obsTable exDf) ∧
    (runDataset [PVal.obsTable exDf] 0).2 = procesar_dataset exDf := by
  have h := C9_no_input_mutation [PVal.obsTable exDf] 0 (by decide)
  exact ⟨h.1.trans rfl, h.2.trans rfl⟩

/-- C1 (as stated, refuted): exactness is claimed for every observed year in
[1990, 2025], but the projection loop overwrites the rows 2023-2025.  With an
observation `(2024, "X", 500, 50, 6)` (and one at 2022 with 100 graduates),
the reconstructed 2024 record carries `100 * 1.02^2 = 2601/25`, `40` and `5` —
not the observed `500`, `50`, `6`. -/
theorem C1_counterexample :
    (⟨2024, "X", 500, 50, 6⟩ : Obs) ∈ exDfProj ∧
    (procesar_dataset exDfProj).map
        (fun rows => rows.filter (fun r => decide (r.anio = 2024)))
      = some [⟨2024, some "X", some (2601/25), some 40, some 5⟩] ∧
    ((2601 : ℚ)/25 ≠ 500 ∧ (40 : ℚ) ≠ 50 ∧ (5 : ℚ) ≠ 6) := by
  refine ⟨List.mem_cons_of_mem _ (List.mem_cons_self _ _), ?_, by norm_num⟩
  norm_num [procesar_dataset, bloque, procesarPais, applyProj, anchorRow, historyTable,
    historyRow, anios, uniquePaises, filterPais, exDfProj, List.find?, interpCol, bestLe,
    bestGe, winObs, inWindow, obsAt, projUpdate, growthFactor, List.filter]
  rw [show Int.toNat 2 = 2 from rfl]
  norm_num

/-- C1 (amended, proved): exactness at observed points holds for every
observation whose year lies in [1990, 2022] (the historical range up to the
anchor): the reconstructed record for `(c, y)` carries the observed
`graduados`, `mujeres_pct` and `gasto_pbi` verbatim, and the observed country
label.  (Years 2023-2025 are overwritten by the projection, and years outside
[1990, 2025] are dropped by the join.) -/
theorem C1_exactness_amended (df : List Obs) (o : Obs)
    (hu : uniqYears (filterPais df o.pais))
    (ho : o ∈ df) (h1 : 1990 ≤ o.anio) (h2 : o.anio ≤ 2022) :
    ∃ rows, procesar_dataset df = some rows ∧
      ∃ r ∈ rows, r.anio = o.anio ∧ r.pais = some o.pais ∧
        r.graduados = some o.graduados ∧ r.mujeres_pct = some o.mujeres_pct ∧
        r.gasto_pbi = some o.gasto_pbi := by
  have hol : o ∈ filterPais df o.pais := mem_filterPais ho rfl
  have hyan : o.anio ∈ anios := mem_anios.mpr ⟨h1, by omega⟩
  have hw : inWindow o = true := inWindow_of_anios hyan
  have hpp : o.pais ∈ uniquePaises df := mem_uniquePaises.mpr ⟨o, ho, rfl⟩
  have hmem := mem_bloque df o.pais hyan
  rw [projUpdate_of_le
    (show (historyRow (filterPais df o.pais) o.anio).anio ≤ 2022 from h2)] at hmem
  obtain ⟨rows, hrows, hmemr⟩ := mem_procesar hpp hmem
  refine ⟨rows, hrows, historyRow (filterPais df o.pais) o.anio, hmemr, rfl, ?_, ?_, ?_, ?_⟩
  · show (obsAt (filterPais df o.pais) o.anio).map (fun o => o.pais) = some o.pais
    rw [obsAt_observed hu hol hw]
    rfl
  · exact interpCol_observed _ hu hol hw rfl
  · exact interpCol_observed _ hu hol hw rfl
  · exact interpCol_observed _ hu hol hw rfl

/-- C1 witness: the theorem applied to the spec's example scenario, at the
observation `(1990, "X", 100, 20, 4)`. -/
theorem C1_witness :
    ∃ rows, procesar_dataset exDf = some rows ∧
      ∃ r ∈ rows, r.anio = 1990 ∧ r.pais = some "X" ∧
        r.graduados = some 100 ∧ r.mujeres_pct = some 20 ∧
        r.gasto_pbi = some 4 :=
  C1_exactness_amended exDf ⟨1990, "X", 100, 20, 4⟩ (by decide)
    (List.mem_cons_self _ _) (by decide) (by decide)

/-- C2 (confirmed): for every country present in the input, the block of rows
it contributes to the output lists exactly the years of `anios`, which is the
duplicate-free contiguous integer range [1990, 2025]. -/
theorem C2_contiguity (df : List Obs) (p : String) (hp : ∃ o ∈ df, o.pais = p) :
    ∃ rows pre post, procesar_dataset df = some rows ∧
      rows = pre ++ bloque df p ++ post ∧
      (bloque df p).map (fun r => r.anio) = anios ∧
      anios.Nodup ∧ (∀ y : Int, y ∈ anios ↔ 1990 ≤ y ∧ y ≤ 2025) := by
  obtain ⟨rows, pre, post, hrows, hsplit⟩ := bloque_in_rows (mem_uniquePaises.mpr hp)
  exact ⟨rows, pre, post, hrows, hsplit, bloque_anios df p, anios_nodup, fun y => mem_anios⟩

/-- C2 witness: instantiated at the spec's example scenario. -/
theorem C2_witness :
    ∃ rows pre post, procesar_dataset exDf = some rows ∧
      rows = pre ++ bloque exDf "X" ++ post ∧
      (bloque exDf "X").map (fun r => r.anio) = anios ∧
      anios.Nodup ∧ (∀ y : Int, y ∈ anios ↔ 1990 ≤ y ∧ y ≤ 2025) :=
  C2_contiguity exDf "X" ⟨⟨1990, "X", 100, 20, 4⟩, List.mem_cons_self _ _, rfl⟩

/-- C3 (as stated, refuted): the claim quantifies over every gap year between
two bracketing observations, but a gap year past the anchor 2022 is
overwritten by the projection.  Between `(2022, 100)` and `(2024, 500)` the
claimed linear value at 2023 is 300, yet the code produces
`100 * 1.02 = 102`. -/
theorem C3_counterexample :
    (⟨2022, "X", 100, 40, 5⟩ : Obs) ∈ exDfProj ∧
    (⟨2024, "X", 500, 50, 6⟩ : Obs) ∈ exDfProj ∧
    (procesar_dataset exDfProj).map
        (fun rows => rows.filter (fun r => decide (r.anio = 2023)))
      = some [⟨2023, some "X", some 102, some 40, some 5⟩] ∧
    (102 : ℚ) ≠ 100 + (500 - 100) * ((2023 - 2022 : Int) : ℚ) / ((2024 - 2022 : Int) : ℚ) := by
  refine ⟨List.mem_cons_self _ _, List.mem_cons_of_mem _ (List.mem_cons_self _ _), ?_, by norm_num⟩
  norm_num [procesar_dataset, bloque, procesarPais, applyProj, anchorRow, historyTable,
    historyRow, anios, uniquePaises, filterPais, exDfProj, List.find?, interpCol, bestLe,
    bestGe, winObs, inWindow, obsAt, projUpdate, growthFactor, List.filter]

/-- C3 (amended, proved): linear interpolation between bracketing
observations holds for every gap year `y ≤ 2022` (the anchor), provided both
brackets lie in the joined window [1990, 2025]: each numeric column at `y` is
`v1 + (v2 - v1) * (y - y1) / (y2 - y1)`. -/
theorem C3_interp_amended (df : List Obs) (p : String) (o1 o2 : Obs) (y : Int)
    (hp : p ∈ uniquePaises df) (hu : uniqYears (filterPais df p))
    (h1 : o1 ∈ filterPais df p) (h2 : o2 ∈ filterPais df p)
    (hw1 : 1990 ≤ o1.anio) (hw2 : o2.anio ≤ 2025)
    (hy1 : o1.anio < y) (hy2 : y < o2.anio) (hy3 : y ≤ 2022)
    (hnb : ∀ o ∈ filterPais df p, o.anio ≤ o1.anio ∨ o2.anio ≤ o.anio) :
    ∃ rows, procesar_dataset df = some rows ∧
      ∃ r ∈ rows, r.anio = y ∧
        r.graduados = some (o1.graduados + (o2.graduados - o1.graduados)
          * ((y - o1.anio : Int) : ℚ) / ((o2.anio - o1.anio : Int) : ℚ)) ∧
        r.mujeres_pct = some (o1.mujeres_pct + (o2.mujeres_pct - o1.mujeres_pct)
          * ((y - o1.anio : Int) : ℚ) / ((o2.anio - o1.anio : Int) : ℚ)) ∧
        r.gasto_pbi = some (o1.gasto_pbi + (o2.gasto_pbi - o1.gasto_pbi)
          * ((y - o1.anio : Int) : ℚ) / ((o2.anio - o1.anio : Int) : ℚ)) := by
  have h1w : o1 ∈ winObs (filterPais df p) :=
    List.mem_filter.mpr ⟨h1, by rw [inWindow, decide_eq_true_eq]; omega⟩
  have h2w : o2 ∈ winObs (filterPais df p) :=
    List.mem_filter.mpr ⟨h2, by rw [inWindow, decide_eq_true_eq]; omega⟩
  have hnbw : ∀ o ∈ winObs (filterPais df p), o.anio ≤ o1.anio ∨ o2.anio ≤ o.anio :=
    fun o ho => hnb o (List.mem_filter.mp ho).1
  have hyan : y ∈ anios := mem_anios.mpr ⟨by omega, by omega⟩
  have hmem := mem_bloque df p hyan
  rw [projUpdate_of_le (show (historyRow (filterPais df p) y).anio ≤ 2022 from hy3)] at hmem
  obtain ⟨rows, hrows, hmemr⟩ := mem_procesar hp hmem
  exact ⟨rows, hrows, historyRow (filterPais df p) y, hmemr, rfl,
    interpCol_linear _ hu h1w h2w hy1 hy2 hnbw,
    interpCol_linear _ hu h1w h2w hy1 hy2 hnbw,
    interpCol_linear _ hu h1w h2w hy1 hy2 hnbw⟩

/-- C3 witness: the spec's own example — between `(1990, 100, 20, 4.0)` and
`(2022, 200, 40, 5.0)`, the midpoint year 2006 gets 150 graduates, 30 %
women and 4.5 % spend. -/
theorem C3_witness :
    ∃ rows, procesar_dataset exDf = some rows ∧
      ∃ r ∈ rows, r.anio = 2006 ∧
        r.graduados = some 150 ∧ r.mujeres_pct = some 30 ∧ r.gasto_pbi = some (9/2) := by
  obtain ⟨rows, hrows, r, hr, ha, hg, hm, hs⟩ :=
    C3_interp_amended exDf "X" ⟨1990, "X", 100, 20, 4⟩ ⟨2022, "X", 200, 40, 5⟩ 2006
      (by decide) (by decide)
      (List.mem_filter.mpr ⟨List.mem_cons_self _ _, by decide⟩)
      (List.mem_filter.mpr ⟨List.mem_cons_of_mem _ (List.mem_cons_self _ _), by decide⟩)
      (by decide) (by decide) (by decide) (by decide) (by decide) (by decide)
  refine ⟨rows, hrows, r, hr, ha, ?_, ?_, ?_⟩
  · rw [hg]; norm_num
  · rw [hm]; norm_num
  · rw [hs]; norm_num

/-- C4 (confirmed): for every country in the input and every projected year
`y ∈ {2023, 2024, 2025}`, the output holds a row at the anchor 2022 whose
`graduados` is the reconstructed anchor value, and the row at `y` carries
`graduados(2022) * 1.02^(y-2022)` and the country label; consequently for two
projected years `y1 < y2` the later value is the earlier times
`1.02^(y2-y1)`. -/
theorem C4_growth_tail (df : List Obs) (p : String) (hp : p ∈ uniquePaises df) :
    ∃ rows, procesar_dataset df = some rows ∧
      (∀ y : Int, 2022 < y → y ≤ 2025 →
        ∃ ra rb, ra ∈ rows ∧ rb ∈ rows ∧ ra.anio = 2022 ∧ rb.anio = y ∧
          rb.pais = some p ∧
          ra.graduados = interpCol (filterPais df p) (fun o => o.graduados) 2022 ∧
          rb.graduados = ra.graduados.map (fun g => g * growthFactor ^ (y - 2022).toNat)) ∧
      (∀ y1 y2 : Int, 2022 < y1 → y1 < y2 → y2 ≤ 2025 →
        ∃ r1 r2, r1 ∈ rows ∧ r2 ∈ rows ∧ r1.anio = y1 ∧ r2.anio = y2 ∧
          r2.graduados = r1.graduados.map (fun g => g * growthFactor ^ (y2 - y1).toNat)) := by
  have hne : uniquePaises df ≠ [] := List.ne_nil_of_mem hp
  have hra : historyRow (filterPais df p) 2022 ∈ bloque df p := by
    have h22 : (2022 : Int) ∈ anios := by decide
    have h := mem_bloque df p h22
    rwa [projUpdate_of_le
      (show (historyRow (filterPais df p) 2022).anio ≤ 2022 from le_refl _)] at h
  refine ⟨_, procesar_dataset_eq hne, ?_, ?_⟩
  · intro y hy1 hy2
    have hyan : y ∈ anios := mem_anios.mpr ⟨by omega, hy2⟩
    have hrb := mem_bloque df p hyan
    rw [projUpdate_of_gt (show 2022 < (historyRow (filterPais df p) y).anio from hy1)
      (show (historyRow (filterPais df p) y).anio ≤ 2025 from hy2)] at hrb
    exact ⟨historyRow (filterPais df p) 2022, _,
      mem_rows_of_mem_bloque hp (procesar_dataset_eq hne) hra,
      mem_rows_of_mem_bloque hp (procesar_dataset_eq hne) hrb,
      rfl, rfl, rfl, rfl, rfl⟩
  · intro y1 y2 hy1 hy12 hy2
    have hyan1 : y1 ∈ anios := mem_anios.mpr ⟨by omega, by omega⟩
    have hyan2 : y2 ∈ anios := mem_anios.mpr ⟨by omega, hy2⟩
    have hr1 := mem_bloque df p hyan1
    rw [projUpdate_of_gt (show 2022 < (historyRow (filterPais df p) y1).anio from hy1)
      (show (historyRow (filterPais df p) y1).anio ≤ 2025 from by
        show y1 ≤ 2025; omega)] at hr1
    have hr2 := mem_bloque df p hyan2
    rw [projUpdate_of_gt (show 2022 < (historyRow (filterPais df p) y2).anio from by
        show (2022 : Int) < y2; omega)
      (show (historyRow (filterPais df p) y2).anio ≤ 2025 from hy2)] at hr2
    refine ⟨_, _, mem_rows_of_mem_bloque hp (procesar_dataset_eq hne) hr1,
      mem_rows_of_mem_bloque hp (procesar_dataset_eq hne) hr2, rfl, rfl, ?_⟩
    show ((historyRow (filterPais df p) 2022).graduados.map
        (fun g => g * growthFactor ^ (y2 - 2022).toNat))
      = ((historyRow (filterPais df p) 2022).graduados.map
        (fun g => g * growthFactor ^ (y1 - 2022).toNat)).map
          (fun g => g * growthFactor ^ (y2 - y1).toNat)
    have hexp : (y1 - 2022).toNat + (y2 - y1).toNat = (y2 - 2022).toNat := by omega
    cases (historyRow (filterPais df p) 2022).graduados with
    | none => rfl
    | some g =>
      show some (g * growthFactor ^ (y2 - 2022).toNat)
        = some (g * growthFactor ^ (y1 - 2022).toNat * growthFactor ^ (y2 - y1).toNat)
      rw [mul_assoc, ← pow_add, hexp]

/-- C4 witness: in the spec's example scenario, year 2025 carries
`200 * 1.02^3 = 212.2416` graduates, and 2025 relates to 2023 by a factor
`1.02^2`. -/
theorem C4_witness :
    ∃ rows, procesar_dataset exDf = some rows ∧
      (∃ ra rb, ra ∈ rows ∧ rb ∈ rows ∧ ra.anio = 2022 ∧ rb.anio = 2025 ∧
        rb.pais = some "X" ∧
        ra.graduados = interpCol (filterPais exDf "X") (fun o => o.graduados) 2022 ∧
        rb.graduados = ra.graduados.map (fun g => g * growthFactor ^ (2025 - 2022 : Int).toNat)) ∧
      (∃ r1 r2, r1 ∈ rows ∧ r2 ∈ rows ∧ r1.anio = 2023 ∧ r2.anio = 2025 ∧
        r2.graduados = r1.graduados.map (fun g => g * growthFactor ^ (2025 - 2023 : Int).toNat)) := by
  obtain ⟨rows, hrows, h1, h2⟩ := C4_growth_tail exDf "X" (by decide)
  exact ⟨rows, hrows, h1 2025 (by decide) (by decide), h2 2023 2025 (by decide) (by decide) (by decide)⟩

/-- C5 (confirmed): for every country and every projected year
`y ∈ {2023, 2024, 2025}`, the percentage columns of the row at `y` equal the
reconstructed percentage columns of the anchor row at 2022 — frozen, never
extrapolated. -/
theorem C5_frozen_pcts (df : List Obs) (p : String) (hp : p ∈ uniquePaises df) :
    ∃ rows, procesar_dataset df = some rows ∧
      ∀ y : Int, 2022 < y → y ≤ 2025 →
        ∃ ra rb, ra ∈ rows ∧ rb ∈ rows ∧ ra.anio = 2022 ∧ rb.anio = y ∧
          rb.pais = some p ∧
          rb.mujeres_pct = ra.mujeres_pct ∧ rb.gasto_pbi = ra.gasto_pbi ∧
          ra.mujeres_pct = interpCol (filterPais df p) (fun o => o.mujeres_pct) 2022 ∧
          ra.gasto_pbi = interpCol (filterPais df p) (fun o => o.gasto_pbi) 2022 := by
  have hne : uniquePaises df ≠ [] := List.ne_nil_of_mem hp
  have hra : historyRow (filterPais df p) 2022 ∈ bloque df p := by
    have h22 : (2022 : Int) ∈ anios := by decide
    have h := mem_bloque df p h22
    rwa [projUpdate_of_le
      (show (historyRow (filterPais df p) 2022).anio ≤ 2022 from le_refl _)] at h
  refine ⟨_, procesar_dataset_eq hne, ?_⟩
  intro y hy1 hy2
  have hyan : y ∈ anios := mem_anios.mpr ⟨by omega, hy2⟩
  have hrb := mem_bloque df p hyan
  rw [projUpdate_of_gt (show 2022 < (historyRow (filterPais df p) y).anio from hy1)
    (show (historyRow (filterPais df p) y).anio ≤ 2025 from hy2)] at hrb
  exact ⟨historyRow (filterPais df p) 2022, _,
    mem_rows_of_mem_bloque hp (procesar_dataset_eq hne) hra,
    mem_rows_of_mem_bloque hp (procesar_dataset_eq hne) hrb,
    rfl, rfl, rfl, rfl, rfl, rfl, rfl⟩

/-- C5 witness: in the spec's example scenario the 2024 row freezes the
anchor's percentages. -/
theorem C5_witness :
    ∃ rows, procesar_dataset exDf = some rows ∧
      ∃ ra rb, ra ∈ rows ∧ rb ∈ rows ∧ ra.anio = 2022 ∧ rb.anio = 2024 ∧
        rb.pais = some "X" ∧
        rb.mujeres_pct = ra.mujeres_pct ∧ rb.gasto_pbi = ra.gasto_pbi ∧
        ra.mujeres_pct = interpCol (filterPais exDf "X") (fun o => o.mujeres_pct) 2022 ∧
        ra.gasto_pbi = interpCol (filterPais exDf "X") (fun o => o.gasto_pbi) 2022 := by
  obtain ⟨rows, hrows, h⟩ := C5_frozen_pcts exDf "X" (by decide)
  exact ⟨rows, hrows, h 2024 (by decide) (by decide)⟩

/-- C6 (as stated, refuted): `interpolate` never touches the object column
`pais`, so rows synthesized for interpolated gap years keep a missing (NaN)
country label — only observed rows and the explicitly labelled projected rows
2023-2025 carry one.  In the spec's example scenario the 1991 row has
`pais = none` (the dashboard later filters these NaNs out of its country
list, src/app.py line 125). -/
theorem C6_counterexample :
    (∃ o ∈ exDf, o.pais = "X") ∧
    (procesar_dataset exDf).map
        (fun rows => rows.filter (fun r => decide (r.anio = 1991)))
      = some [⟨1991, none, some (825/8), some (165/8), some (129/32)⟩] ∧
    (none : Option String) ≠ some "X" := by
  refine ⟨⟨⟨1990, "X", 100, 20, 4⟩, List.mem_cons_self _ _, rfl⟩, ?_, by simp⟩
  norm_num [procesar_dataset, bloque, procesarPais, applyProj, anchorRow, historyTable,
    historyRow, anios, uniquePaises, filterPais, exDf, List.find?, interpCol, bestLe,
    bestGe, winObs, inWindow, obsAt, projUpdate, growthFactor, List.filter]

/-- C6 (amended, proved): the country label is attached to the observed rows
(years in [1990, 2025] at which the country has an observation) and to every
projected row (2023-2025); rows of interpolated or filled gap years `≤ 2022`
carry a missing (`none`) label instead. -/
theorem C6_label_amended (df : List Obs) (p : String) (y : Int)
    (hp : p ∈ uniquePaises df) (hu : uniqYears (filterPais df p)) (hy : y ∈ anios) :
    ∃ rows, procesar_dataset df = some rows ∧
      ∃ r ∈ rows, r.anio = y ∧
        (2022 < y → r.pais = some p) ∧
        (y ≤ 2022 → ∀ o ∈ filterPais df p, o.anio = y → r.pais = some p) ∧
        (y ≤ 2022 → (∀ o ∈ filterPais df p, o.anio ≠ y) → r.pais = none) := by
  obtain ⟨rows, hrows, hmemr⟩ := mem_procesar hp (mem_bloque df p hy)
  refine ⟨rows, hrows,
    projUpdate (historyRow (filterPais df p) 2022) p (historyRow (filterPais df p) y),
    hmemr, by rw [projUpdate_anio]; rfl, ?_, ?_, ?_⟩
  · intro h2
    rw [projUpdate_of_gt (show 2022 < (historyRow (filterPais df p) y).anio from h2)
      (show (historyRow (filterPais df p) y).anio ≤ 2025 from (mem_anios.mp hy).2)]
  · intro h2 o ho hoy
    rw [projUpdate_of_le (show (historyRow (filterPais df p) y).anio ≤ 2022 from h2)]
    show (obsAt (filterPais df p) y).map (fun o => o.pais) = some p
    rw [← hoy, obsAt_observed hu ho (inWindow_of_anios (hoy ▸ hy))]
    show some o.pais = some p
    rw [filterPais_pais ho]
  · intro h2 hno
    rw [projUpdate_of_le (show (historyRow (filterPais df p) y).anio ≤ 2022 from h2)]
    show (obsAt (filterPais df p) y).map (fun o => o.pais) = none
    rw [obsAt_none (fun o ho => hno o (List.mem_filter.mp ho).1)]
    rfl

/-- C6 witness: in the example scenario, year 2023 is labelled, year 1990 is
labelled because observed, and year 1991 is unlabelled. -/
theorem C6_witness :
    (∃ rows, procesar_dataset exDf = some rows ∧
      ∃ r ∈ rows, r.anio = 2023 ∧
        (2022 < (2023 : Int) → r.pais = some "X") ∧
        ((2023 : Int) ≤ 2022 → ∀ o ∈ filterPais exDf "X", o.anio = 2023 → r.pais = some "X") ∧
        ((2023 : Int) ≤ 2022 → (∀ o ∈ filterPais exDf "X", o.anio ≠ 2023) → r.pais = none)) ∧
    (∃ rows, procesar_dataset exDf = some rows ∧
      ∃ r ∈ rows, r.anio = 1991 ∧
        (2022 < (1991 : Int) → r.pais = some "X") ∧
        ((1991 : Int) ≤ 2022 → ∀ o ∈ filterPais exDf "X", o.anio = 1991 → r.pais = some "X") ∧
        ((1991 : Int) ≤ 2022 → (∀ o ∈ filterPais exDf "X", o.anio ≠ 1991) → r.pais = none)) :=
  ⟨C6_label_amended exDf "X" 2023 (by decide) (by decide) (by decide),
   C6_label_amended exDf "X" 1991 (by decide) (by decide) (by decide)⟩

set_option maxHeartbeats 2000000 in
/-- C7 (as stated, refuted): `interpolate(method='linear')` defaults to
`limit_direction='forward'`, so years *before* a country's first observation
are left NaN, not flat-filled.  With a single observation at year 2000, the
1990 row has all numeric fields missing, while a year *after* the last
observation (2010) is indeed flat-filled. -/
theorem C7_counterexample :
    (procesar_dataset exDfLate).map
        (fun rows => rows.filter (fun r => decide (r.anio = 1990)))
      = some [⟨1990, none, none, none, none⟩] ∧
    (procesar_dataset exDfLate).map
        (fun rows => rows.filter (fun r => decide (r.anio = 2010)))
      = some [⟨2010, none, some 100, some 20, some 4⟩] ∧
    (none : Option ℚ) ≠ some 100 := by
  refine ⟨?_, ?_, by simp⟩
  · norm_num [procesar_dataset, bloque, procesarPais, applyProj, anchorRow, historyTable,
      historyRow, anios, uniquePaises, filterPais, exDfLate, List.find?, interpCol, bestLe,
      bestGe, winObs, inWindow, obsAt, projUpdate, growthFactor, List.filter]
  · norm_num [procesar_dataset, bloque, procesarPais, applyProj, anchorRow, historyTable,
      historyRow, anios, uniquePaises, filterPais, exDfLate, List.find?, interpCol, bestLe,
      bestGe, winObs, inWindow, obsAt, projUpdate, growthFactor, List.filter]

/-- C7 (amended, proved): at unbracketed historical years the fill is
one-sided: a year `y ≤ 2022` strictly after the country's last in-window
observation repeats that observation's values flat, while a year strictly
before the country's first in-window observation is left undefined (all three
numeric fields missing). -/
theorem C7_boundary_amended (df : List Obs) (p : String) (y : Int)
    (hp : p ∈ uniquePaises df) (hu : uniqYears (filterPais df p))
    (h1 : 1990 ≤ y) (h2 : y ≤ 2022) :
    ∃ rows, procesar_dataset df = some rows ∧
      ∃ r ∈ rows, r.anio = y ∧
        ((∀ o ∈ winObs (filterPais df p), y < o.anio) →
          r.graduados = none ∧ r.mujeres_pct = none ∧ r.gasto_pbi = none) ∧
        (∀ o ∈ winObs (filterPais df p),
          (∀ o' ∈ winObs (filterPais df p), o'.anio ≤ o.anio) → o.anio < y →
            r.graduados = some o.graduados ∧ r.mujeres_pct = some o.mujeres_pct ∧
            r.gasto_pbi = some o.gasto_pbi) := by
  have hyan : y ∈ anios := mem_anios.mpr ⟨h1, by omega⟩
  have hmem := mem_bloque df p hyan
  rw [projUpdate_of_le (show (historyRow (filterPais df p) y).anio ≤ 2022 from h2)] at hmem
  obtain ⟨rows, hrows, hmemr⟩ := mem_procesar hp hmem
  refine ⟨rows, hrows, historyRow (filterPais df p) y, hmemr, rfl, ?_, ?_⟩
  · intro hno
    exact ⟨interpCol_undef _ hno, interpCol_undef _ hno, interpCol_undef _ hno⟩
  · intro o ho hmax hlt
    exact ⟨interpCol_flat _ hu ho hmax hlt, interpCol_flat _ hu ho hmax hlt,
      interpCol_flat _ hu ho hmax hlt⟩

/-- C7 witness: with the single observation `(2000, "X", 100, 20, 4)`, the
2010 row repeats it flat and the 1990 row is empty. -/
theorem C7_witness :
    (∃ rows, procesar_dataset exDfLate = some rows ∧
      ∃ r ∈ rows, r.anio = 2010 ∧
        ((∀ o ∈ winObs (filterPais exDfLate "X"), (2010 : Int) < o.anio) →
          r.graduados = none ∧ r.mujeres_pct = none ∧ r.gasto_pbi = none) ∧
        (∀ o ∈ winObs (filterPais exDfLate "X"),
          (∀ o' ∈ winObs (filterPais exDfLate "X"), o'.anio ≤ o.anio) → o.anio < 2010 →
            r.graduados = some o.graduados ∧ r.mujeres_pct = some o.mujeres_pct ∧
            r.gasto_pbi = some o.gasto_pbi)) ∧
    (∃ rows, procesar_dataset exDfLate = some rows ∧
      ∃ r ∈ rows, r.anio = 1990 ∧
        ((∀ o ∈ winObs (filterPais exDfLate "X"), (1990 : Int) < o.anio) →
          r.graduados = none ∧ r.mujeres_pct = none ∧ r.gasto_pbi = none) ∧
        (∀ o ∈ winObs (filterPais exDfLate "X"),
          (∀ o' ∈ winObs (filterPais exDfLate "X"), o'.anio ≤ o.anio) → o.anio < 1990 →
            r.graduados = some o.graduados ∧ r.mujeres_pct = some o.mujeres_pct ∧
            r.gasto_pbi = some o.gasto_pbi)) :=
  ⟨C7_boundary_amended exDfLate "X" 2010 (by decide) (by decide) (by decide) (by decide),
   C7_boundary_amended exDfLate "X" 1990 (by decide) (by decide) (by decide) (by decide)⟩

/-- C8 (as stated, refuted): on an input table with zero rows the per-country
list is empty, so `pd.concat([])` raises `ValueError` instead of returning an
empty record collection (modelled as the `none` result). -/
theorem C8_counterexample :
    procesar_dataset ([] : List Obs) = none ∧
    (none : Option (List Row)) ≠ some ([] : List Row) :=
  ⟨rfl, by simp⟩

/-- C8 (amended, proved): for every nonempty input, reconstruction succeeds —
no error value — and every country of the input contributes a full 36-row
block, so the output has `36 *` (number of distinct countries) rows; only the
degenerate zero-row table makes `pd.concat` raise.  (A country present in the
input necessarily has at least one observation, so an "empty country record
set" cannot arise.) -/
theorem C8_nonempty_amended (df : List Obs) (h : df ≠ []) :
    ∃ rows, procesar_dataset df = some rows ∧
      rows.length = 36 * (uniquePaises df).length ∧
      ∀ p ∈ uniquePaises df, (bloque df p).length = 36 := by
  have hne : uniquePaises df ≠ [] := uniquePaises_ne_nil h
  have hlen : ∀ p, (bloque df p).length = 36 := by
    intro p
    rw [bloque_eq, List.length_map]
    rfl
  refine ⟨_, procesar_dataset_eq hne, ?_, fun p _ => hlen p⟩
  have : ∀ ps : List String, ((ps.map (fun p => bloque df p)).flatten).length = 36 * ps.length := by
    intro ps
    induction ps with
    | nil => rfl
    | cons q qs ih =>
      rw [List.map_cons, List.flatten_cons, List.length_append, ih, hlen q, List.length_cons]
      ring
  exact this (uniquePaises df)

/-- C8 witness: the example scenario has one country and 36 output rows. -/
theorem C8_witness :
    ∃ rows, procesar_dataset exDf = some rows ∧
      rows.length = 36 * (uniquePaises exDf).length ∧
      ∀ p ∈ uniquePaises exDf, (bloque exDf p).length = 36 :=
  C8_nonempty_amended exDf (by decide)

/-- C10 (as stated, refuted): the claim covers every year of the observed
span, but a span year past the anchor 2022 is produced by the 2 % growth
projection, which can leave the bracketing interval: with observations
`(2021, 100)` and `(2024, 98)` the 2023 value is
`(100 - 2/3) * 1.02 = 2533/25 = 101.32`, above every observed `graduados`. -/
theorem C10_counterexample :
    (⟨2021, "X", 100, 50, 5⟩ : Obs) ∈ exDfDip ∧
    (⟨2024, "X", 98, 50, 5⟩ : Obs) ∈ exDfDip ∧
    (procesar_dataset exDfDip).map
        (fun rows => rows.filter (fun r => decide (r.anio = 2023)))
      = some [⟨2023, some "X", some (2533/25), some 50, some 5⟩] ∧
    (∀ o ∈ exDfDip, o.graduados ≤ 100) ∧
    ¬ ((2533 : ℚ)/25 ≤ 100) := by
  refine ⟨List.mem_cons_self _ _, List.mem_cons_of_mem _ (List.mem_cons_self _ _), ?_,
    by norm_num [exDfDip], by norm_num⟩
  norm_num [procesar_dataset, bloque, procesarPais, applyProj, anchorRow, historyTable,
    historyRow, anios, uniquePaises, filterPais, exDfDip, List.find?, interpCol, bestLe,
    bestGe, winObs, inWindow, obsAt, projUpdate, growthFactor, List.filter]

/-- C10 (amended, proved): for every year `y ≤ 2022` lying within the span of
the country's in-window observations, each numeric field of the reconstructed
row lies between the values of one bracketing pair of observations — hence
between the country's extreme observed values — and in particular
`mujeres_pct` stays inside any interval `[lo, hi]` (such as [0, 100]) that
contains all the observed `mujeres_pct`. -/
theorem C10_bounds_amended (df : List Obs) (p : String) (y : Int)
    (hp : p ∈ uniquePaises df)
    (hle : ∃ o ∈ winObs (filterPais df p), o.anio ≤ y)
    (hge : ∃ o ∈ winObs (filterPais df p), y ≤ o.anio)
    (hy : y ≤ 2022) :
    ∃ rows, procesar_dataset df = some rows ∧
      ∃ r ∈ rows, r.anio = y ∧
        (∃ o1 o2, o1 ∈ winObs (filterPais df p) ∧ o2 ∈ winObs (filterPais df p) ∧
          (∃ v, r.graduados = some v ∧
            min o1.graduados o2.graduados ≤ v ∧ v ≤ max o1.graduados o2.graduados) ∧
          (∃ v, r.mujeres_pct = some v ∧
            min o1.mujeres_pct o2.mujeres_pct ≤ v ∧ v ≤ max o1.mujeres_pct o2.mujeres_pct) ∧
          (∃ v, r.gasto_pbi = some v ∧
            min o1.gasto_pbi o2.gasto_pbi ≤ v ∧ v ≤ max o1.gasto_pbi o2.gasto_pbi)) ∧
        (∀ lo hi : ℚ,
          (∀ o ∈ winObs (filterPais df p), lo ≤ o.mujeres_pct ∧ o.mujeres_pct ≤ hi) →
          ∃ v, r.mujeres_pct = some v ∧ lo ≤ v ∧ v ≤ hi) := by
  obtain ⟨ow, howm, howy⟩ := id hle
  have hw := (List.mem_filter.mp howm).2
  rw [inWindow, decide_eq_true_eq] at hw
  have hyan : y ∈ anios := mem_anios.mpr ⟨by omega, by omega⟩
  have hmem := mem_bloque df p hyan
  rw [projUpdate_of_le (show (historyRow (filterPais df p) y).anio ≤ 2022 from hy)] at hmem
  obtain ⟨rows, hrows, hmemr⟩ := mem_procesar hp hmem
  obtain ⟨o1, o2, h1m, h2m, hall⟩ := interpCol_bounds hle hge
  refine ⟨rows, hrows, historyRow (filterPais df p) y, hmemr, rfl,
    ⟨o1, o2, h1m, h2m, hall (fun o => o.graduados), hall (fun o => o.mujeres_pct),
      hall (fun o => o.gasto_pbi)⟩, ?_⟩
  intro lo hi hb
  obtain ⟨v, hv, hvmin, hvmax⟩ := hall (fun o => o.mujeres_pct)
  refine ⟨v, hv, ?_, ?_⟩
  · exact le_trans (le_min (hb o1 h1m).1 (hb o2 h2m).1) hvmin
  · exact le_trans hvmax (max_le (hb o1 h1m).2 (hb o2 h2m).2)

/-- C10 witness: in the spec's example scenario the year 2006 lies within the
span and all three fields stay between the 1990 and 2022 observations; the
women share (30) stays inside [0, 100]. -/
theorem C10_witness :
    ∃ rows, procesar_dataset exDf = some rows ∧
      ∃ r ∈ rows, r.anio = 2006 ∧
        (∃ o1 o2, o1 ∈ winObs (filterPais exDf "X") ∧ o2 ∈ winObs (filterPais exDf "X") ∧
          (∃ v, r.graduados = some v ∧
            min o1.graduados o2.graduados ≤ v ∧ v ≤ max o1.graduados o2.graduados) ∧
          (∃ v, r.mujeres_pct = some v ∧
            min o1.mujeres_pct o2.mujeres_pct ≤ v ∧ v ≤ max o1.mujeres_pct o2.mujeres_pct) ∧
          (∃ v, r.gasto_pbi = some v ∧
            min o1.gasto_pbi o2.gasto_pbi ≤ v ∧ v ≤ max o1.gasto_pbi o2.gasto_pbi)) ∧
        (∀ lo hi : ℚ,
          (∀ o ∈ winObs (filterPais exDf "X"), lo ≤ o.mujeres_pct ∧ o.mujeres_pct ≤ hi) →
          ∃ v, r.mujeres_pct = some v ∧ lo ≤ v ∧ v ≤ hi) :=
  C10_bounds_amended exDf "X" 2006 (by decide)
    ⟨⟨1990, "X", 100, 20, 4⟩, by decide, by decide⟩
    ⟨⟨2022, "X", 200, 40, 5⟩, by decide, by decide⟩
    (by decide)

end STEM
